import Mathlib

/-!
# flynn-api: a verification development for `server.go`

Shallow embedding of the formation reconciler (`changeFormation`), the
attach handshake (`lorneAttach`), the job launcher (`runJob`) and the
identifier generator (`randomID`) of `server.go`, followed by the theorems
about them.

Conventions of the embedding.

* A Go `string` is a `GoString`, the list of its characters; `+` is `++` and
  `strings.HasPrefix` is `HasPrefix`.
* A Go `byte` is a `Byte` (`Fin 256`).
* A Go map is an association list with distinct keys; the order of the list
  is the order in which one `range` over the map visits it.  Later passes over
  the same map may visit it in any other order: they are given by an `order`
  function (pass number to key order).
* Calls to external collaborators (scheduler, registry, network) take their
  outcome from an explicit parameter and are recorded in a list of effects.
-/

namespace FlynnAPI

/-! ## Strings and bytes -/

/-- Go `string`, as the list of its characters. -/
abbrev GoString := List Char

/-- Go `byte`. -/
abbrev Byte := Fin 256

/-- Go `strings.HasPrefix(s, prefix)`. -/
def HasPrefix (s pfx : GoString) : Bool := pfx.isPrefixOf s

/-- Go `error` values that occur in `server.go`: an error handed back by a
collaborator (`ext`), `io.EOF`, and `errors.New(string(bytes))`. -/
inductive GoError where
  | ext (msg : GoString)
  | eof
  | new (msg : List Byte)
  deriving DecidableEq, Repr

/-! ## `encoding/base64` (URL encoding) and `bytes.TrimRight` -/

/-- The alphabet of `base64.URLEncoding`. -/
def encodeURL : List Char :=
  "ABCDEFGHIJKLMNOPQRSTUVWXYZabcdefghijklmnopqrstuvwxyz0123456789-_".toList

/-- The padding character of `base64.URLEncoding`. -/
def padChar : Char := '='

/-- Table lookup `enc.encode[i]`. -/
def encodeAt (i : Nat) : Char := encodeURL.getD i padChar

/-- The method `(*Encoding).Encode` of `encoding/base64` for `URLEncoding`: whole
groups of three bytes give four characters; a remainder of one or two bytes
gives two or three characters and padding up to four. -/
def Encode : List Byte → List Char
  | [] => []
  | [a] =>
    let val := a.val <<< 16
    [encodeAt (val >>> 18 &&& 0x3F), encodeAt (val >>> 12 &&& 0x3F), padChar, padChar]
  | [a, b] =>
    let val := a.val <<< 16 ||| b.val <<< 8
    [encodeAt (val >>> 18 &&& 0x3F), encodeAt (val >>> 12 &&& 0x3F),
     encodeAt (val >>> 6 &&& 0x3F), padChar]
  | a :: b :: c :: rest =>
    let val := a.val <<< 16 ||| b.val <<< 8 ||| c.val
    encodeAt (val >>> 18 &&& 0x3F) :: encodeAt (val >>> 12 &&& 0x3F) ::
      encodeAt (val >>> 6 &&& 0x3F) :: encodeAt (val &&& 0x3F) :: Encode rest

/-- Go `bytes.TrimRight(s, cutset)`: drop the longest suffix made of characters
of `cutset`. -/
def TrimRight (s : List Char) (cutset : List Char) : List Char :=
  (s.reverse.dropWhile (fun c => cutset.contains c)).reverse

/-- The function `randomID` of `server.go`, applied to the 16 bytes `b` that
`io.ReadFull(rand.Reader, b)` delivered.  (When the read fails the source
panics and returns nothing; `readRandomID` keeps that path.) -/
def randomID (b : List Byte) : GoString :=
  TrimRight (Encode b) [padChar]

/-- Outcome of `io.ReadFull(rand.Reader, b)` on the 16-byte buffer `b`: an error,
or the buffer filled with exactly 16 bytes. -/
abbrev RandRead := Except GoError { b : List Byte // b.length = 16 }

/-- The function `randomID` with the outcome of `io.ReadFull` explicit: `none`
is the panic of the source on a failed read. -/
def readRandomID (read : RandRead) : Option GoString :=
  match read with
  | .error _ => none
  | .ok b => some (randomID b.val)

/-- Characters of the URL-safe base64 alphabet: `A-Z`, `a-z`, `0-9`, `-`, `_`. -/
def isURLSafe (c : Char) : Bool :=
  c.isUpper || c.isLower || c.isDigit || c == '-' || c == '_'

/-! ## Go maps -/

/-- Go `m[k]`, with `none` for an absent key. -/
def mapGet {ν : Type} (m : List (GoString × ν)) (k : GoString) : Option ν :=
  match m with
  | [] => none
  | (k', v) :: rest => if k' = k then some v else mapGet rest k

/-- Go `m[k] = v`: replaces the value of an existing key, adds the key otherwise. -/
def mapSet {ν : Type} (m : List (GoString × ν)) (k : GoString) (v : ν) : List (GoString × ν) :=
  match m with
  | [] => [(k, v)]
  | (k', v') :: rest => if k' = k then (k, v) :: rest else (k', v') :: mapSet rest k v

/-- The keys of a map, in the order of the list. -/
def mapKeys {ν : Type} (m : List (GoString × ν)) : List GoString := m.map Prod.fst

/-- The order of iteration of `range` over a Go map is unspecified and may
change from one pass to the next: `visit p keys` is the order in which pass
number `p` visits a map whose keys are `keys`; it is some rearrangement of
them. -/
structure RangeOrder where
  visit : Nat → List GoString → List GoString
  perm : ∀ p keys, (visit p keys).Perm keys

/-- The order that visits the keys as listed, in every pass. -/
def RangeOrder.asListed : RangeOrder := ⟨fun _ keys => keys, fun _ _ => List.Perm.refl _⟩

/-- The order that visits the keys as listed in even passes and backwards in
odd passes. -/
def RangeOrder.alternating : RangeOrder :=
  ⟨fun p keys => if p % 2 = 0 then keys else keys.reverse,
   fun p keys => by
    by_cases h : p % 2 = 0
    · simp [h]
    · simp [h, List.reverse_perm]⟩

/-! ## Data model -/

/-- The fields of `docker.Config` that `server.go` sets. -/
structure Config where
  Image : GoString
  Cmd : List GoString
  Env : List GoString := []
  AttachStdin : Bool := false
  AttachStdout : Bool := false
  AttachStderr : Bool := false
  StdinOnce : Bool := false
  OpenStdin : Bool := false
  Tty : Bool := false
  deriving DecidableEq, Repr

/-- The fields of `sampi.Job` that `server.go` uses; `Attributes = none` is the
nil map. -/
structure Job where
  ID : GoString
  Config : Option Config := none
  Attributes : Option (List (GoString × GoString)) := none
  deriving DecidableEq, Repr

/-- The fields of `sampi.Host` that `server.go` uses. -/
structure Host where
  ID : GoString
  Jobs : List Job
  deriving DecidableEq, Repr

/-- The cluster snapshot `map[string]sampi.Host` returned by `scheduler.State()`. -/
abbrev State := List (GoString × Host)

/-- The request `sampi.ScheduleReq`: `HostJobs` is `map[string][]*sampi.Job`. -/
structure ScheduleReq where
  HostJobs : List (GoString × List Job)
  deriving DecidableEq, Repr

/-- What `scheduler.Schedule` hands back: a transport error (`err != nil`) or a
result with its `Success` flag. -/
inductive ScheduleOutcome where
  | transportError (e : GoError)
  | result (Success : Bool)
  deriving DecidableEq, Repr

/-- The scheduler client, as the outcomes of its two calls. -/
structure Scheduler where
  State : Except GoError State
  Schedule : ScheduleReq → ScheduleOutcome

/-- The struct `Formation` of `server.go` (`Typ` is its field `Type`). -/
structure Formation where
  Quantity : Int
  Typ : GoString
  deriving DecidableEq, Repr

/-- Outward calls of a reconciliation.  `stop` is the call named by the comments
of the scale-down loop (`connect to host service`, `stop job`); no statement of
`server.go` performs it, so no run of the embedding contains it. -/
inductive Effect where
  | state
  | schedule (req : ScheduleReq)
  | stop (host : GoString) (job : GoString)
  deriving DecidableEq, Repr

/-- The tuple `(int, http.Header, *Formation, error)` returned by
`changeFormation`; the header is always nil and is left out. -/
structure Response where
  status : Nat
  formation : Option Formation
  err : Option GoError
  deriving DecidableEq, Repr

/-- How a call of a handler ends: it returns, it panics, or the loop budget of
the embedding ran out before it returned. -/
inductive Outcome where
  | returned (r : Response)
  | panicked
  | outOfFuel
  deriving DecidableEq, Repr

/-- One run of `changeFormation`: the outward calls made, in order, and how the
call ended. -/
structure Run where
  effects : List Effect
  outcome : Outcome
  deriving DecidableEq, Repr

/-- The Schedule requests among the effects of a run. -/
def scheduleCalls : List Effect → List ScheduleReq
  | [] => []
  | .schedule r :: es => r :: scheduleCalls es
  | _ :: es => scheduleCalls es

/-- The termination calls among the effects of a run. -/
def terminationCalls : List Effect → List (GoString × GoString)
  | [] => []
  | .stop h j :: es => (h, j) :: terminationCalls es
  | _ :: es => terminationCalls es

/-! ## `changeFormation` -/

/-- The prefix `q.Get("app_id") + "-" + q.Get("formation_id") + "."`. -/
def formationPrefix (app_id formation_id : GoString) : GoString :=
  app_id ++ ['-'] ++ formation_id ++ ['.']

/-- Body of the scan for a matching job: make the attribute map if it is nil
and set `Attributes["host_id"] = host.ID`. -/
def annotate (hostID : GoString) (job : Job) : Job :=
  { job with Attributes := some (mapSet (job.Attributes.getD []) "host_id".toList hostID) }

/-- The scan of `changeFormation` over the snapshot: the jobs whose ID has the
prefix, each annotated with its host, in the order the scan meets them. -/
def matchedJobs (state : State) (pfx : GoString) : List Job :=
  state.flatMap fun entry =>
    (entry.2.Jobs.filter fun job => HasPrefix job.ID pfx).map (annotate entry.2.ID)

/-- The clamp `if req.Quantity < 0 { req.Quantity = 0 }`. -/
def clamp (req : Formation) : Formation :=
  if req.Quantity < 0 then { req with Quantity := 0 } else req

/-- The `docker.Config` given to every job of a scale-up. -/
def formationConfig : Config :=
  { Image := "titanous/redis".toList, Cmd := ["/bin/cat".toList],
    AttachStdout := true, AttachStderr := true }

/-- The statement `HostJobs[host] = append(HostJobs[host], job)`. -/
def appendJob (hostJobs : List (GoString × List Job)) (host : GoString) (job : Job) :
    List (GoString × List Job) :=
  mapSet hostJobs host ((mapGet hostJobs host).getD [] ++ [job])

/-- Number of jobs a host has in the map being filled. -/
def slotLen (hostJobs : List (GoString × List Job)) (host : GoString) : Nat :=
  ((mapGet hostJobs host).getD []).length

/-- Number of jobs in the map being filled. -/
def slotSum (hostJobs : List (GoString × List Job)) : Nat :=
  (hostJobs.map fun entry => entry.2.length).sum

/-- State of the scale-up loop: the map being filled, the remaining `diff`, the
number of identifiers drawn so far, and whether `break outer` was taken. -/
structure LoopState where
  hostJobs : List (GoString × List Job)
  diff : Int
  drawn : Nat
  broke : Bool
  deriving DecidableEq, Repr

/-- One pass `for host := range state { ... }` over the hosts in the order
`hosts`: each host gets one new job until `diff` reaches zero.  The identifier
of the job comes from the call `randomID()`, whose read of the random source is
`rnd st.drawn`; `none` is the panic of that call on a failed read, which ends
the pass and the handler. -/
def innerPass (pfx : GoString) (rnd : Nat → RandRead) :
    List GoString → LoopState → Option LoopState
  | [], st => some st
  | host :: rest, st =>
    match readRandomID (rnd st.drawn) with
    | none => none
    | some id =>
      let job : Job := { ID := pfx ++ id, Config := some formationConfig }
      let hostJobs := appendJob st.hostJobs host job
      let diff := st.diff - 1
      if diff = 0 then
        some { hostJobs := hostJobs, diff := diff, drawn := st.drawn + 1, broke := true }
      else
        innerPass pfx rnd rest
          { hostJobs := hostJobs, diff := diff, drawn := st.drawn + 1, broke := false }

/-- How the scale-up loop ends: a pass took `break outer` (`done`), a call of
`randomID` panicked, or the budget of passes ran out with the loop still
running. -/
inductive LoopEnd where
  | done (st : LoopState)
  | panicked
  | outOfFuel
  deriving DecidableEq, Repr

/-- The loop `outer: for { ... }`: passes over the host map with keys `keys`,
pass number `pass` in the order `order.visit pass keys`, until a pass takes
`break outer` or panics.  `fuel` bounds the number of passes. -/
def outerLoop (pfx : GoString) (rnd : Nat → RandRead) (order : RangeOrder)
    (keys : List GoString) : Nat → Nat → LoopState → LoopEnd
  | 0, _, _ => .outOfFuel
  | fuel + 1, pass, st =>
    match innerPass pfx rnd (order.visit pass keys) st with
    | none => .panicked
    | some st' =>
      if st'.broke then .done st' else outerLoop pfx rnd order keys fuel (pass + 1) st'

/-- Go slice expression `s[:n]`; `none` is the run-time panic.  The bound is
checked against the length (Go checks it against the capacity, which is at
least the length). -/
def sliceTo {α : Type} (s : List α) (n : Int) : Option (List α) :=
  if 0 ≤ n ∧ n ≤ s.length then some (s.take n.toNat) else none

/-- The handler `changeFormation` of `server.go`.

* `sched` gives the outcomes of `scheduler.State()` and `scheduler.Schedule`;
* `order` gives the order in which each pass of the scale-up loop visits the
  keys of the host map;
* `rnd k` is the outcome of the read of the random source in the `k`-th call of
  `randomID` (counted from 0); a failed read makes that call, and the handler,
  panic;
* `fuel` bounds the number of passes of the scale-up loop;
* `app_id` and `formation_id` are the URL query values, `req` the decoded body. -/
def changeFormation (sched : Scheduler) (order : RangeOrder) (rnd : Nat → RandRead)
    (fuel : Nat) (app_id formation_id : GoString) (req : Formation) : Run :=
  match sched.State with
  | .error err => ⟨[.state], .returned ⟨500, none, some err⟩⟩
  | .ok state =>
    let pfx := formationPrefix app_id formation_id
    let jobs := matchedJobs state pfx
    let req := clamp req
    let diff : Int := req.Quantity - jobs.length
    if diff > 0 then
      match outerLoop pfx rnd order (mapKeys state) fuel 0 ⟨[], diff, 0, false⟩ with
      | .outOfFuel => ⟨[.state], .outOfFuel⟩
      | .panicked => ⟨[.state], .panicked⟩
      | .done st =>
        let schedReq : ScheduleReq := ⟨st.hostJobs⟩
        match sched.Schedule schedReq with
        | .transportError err =>
          ⟨[.state, .schedule schedReq], .returned ⟨500, none, some err⟩⟩
        | .result success =>
          if !success then
            ⟨[.state, .schedule schedReq], .returned ⟨500, none, none⟩⟩
          else
            ⟨[.state, .schedule schedReq], .returned ⟨200, some req, none⟩⟩
    else if diff < 0 then
      match sliceTo jobs (-diff) with
      | none => ⟨[.state], .panicked⟩
      | some _ =>
        -- the body of the loop over `jobs[:-diff]` is `_ = job`: no call is made
        ⟨[.state], .returned ⟨200, some req, none⟩⟩
    else
      ⟨[.state], .returned ⟨200, some req, none⟩⟩

/-- The number of jobs of the snapshot whose identifier starts with `pfx`. -/
def matchCount (state : State) (pfx : GoString) : Nat :=
  ((state.flatMap fun entry => entry.2.Jobs).filter fun job => HasPrefix job.ID pfx).length

/-- The number of new jobs a Schedule request gives to `host`. -/
def jobsOn (req : ScheduleReq) (host : GoString) : Nat :=
  slotLen req.HostJobs host

/-- The number of new jobs in a Schedule request, over all hosts. -/
def totalJobs (req : ScheduleReq) : Nat :=
  slotSum req.HostJobs

/-- The identifier `{app}-{type}.{suffix}` of a job formed for app `app` and
formation type `type`. -/
def jobIDFor (app type suffix : GoString) : GoString :=
  app ++ ['-'] ++ type ++ ['.'] ++ suffix

/-! ## `lorneAttach` and `runJob` -/

/-- The connection to the attach agent, seen from the reading side: the bytes
the agent sends after the request, and how the stream ends once they are read
(`none` is a clean end of stream, `some e` a read error `e`). -/
structure Conn where
  incoming : List Byte
  failure : Option GoError := none
  deriving DecidableEq, Repr

/-- One `conn.Read` into a one-byte buffer: the next byte, or the error that
ends the stream (`io.EOF` at a clean end). -/
def Conn.Read (c : Conn) : Except GoError (Byte × Conn) :=
  match c.incoming with
  | [] => .error (c.failure.getD .eof)
  | b :: rest => .ok (b, { c with incoming := rest })

/-- Go `ioutil.ReadAll(conn)`: all remaining bytes, and the read error if the
stream did not end cleanly. -/
def ReadAll (c : Conn) : List Byte × Option GoError := (c.incoming, c.failure)

/-- The status bytes `lorne.AttachError` and `lorne.AttachWaiting`, declared in
the package `lorne/types`. -/
structure StatusBytes where
  AttachError : Byte
  AttachWaiting : Byte
  deriving DecidableEq, Repr

/-- The attach flags of `lorne/types` that `runJob` combines. -/
inductive AttachFlag where
  | AttachFlagStdout
  | AttachFlagStderr
  | AttachFlagStdin
  | AttachFlagStream
  deriving DecidableEq, Repr

/-- The fields of `lorne.AttachReq`; `Flags` lists the flags that are set. -/
structure AttachReq where
  JobID : GoString
  Flags : List AttachFlag
  Height : Nat
  Width : Nat
  deriving DecidableEq, Repr

/-- Outcomes of the collaborators of `lorneAttach`: `Services name` is
`disc.Services(name)` followed by `OnlineAddrs()`, `Dial addr` is
`net.Dial("tcp", addr)`, and `Encode req` is the error of writing the request
with `gob`. -/
structure Network where
  Services : GoString → Except GoError (List GoString)
  Dial : GoString → Except GoError Conn
  Encode : AttachReq → Option GoError

/-- The channel `errChan`; a nil channel is `none : Option ErrChan`. -/
inductive ErrChan where
  | made
  deriving DecidableEq, Repr

/-- The goroutine `lorneAttach` starts before returning: the copy loop `attach`,
or the wait for the second status byte; each holds the connection as the
caller's path left it. -/
inductive Goroutine where
  | attach (conn : Conn)
  | awaitStatus (conn : Conn)
  deriving DecidableEq, Repr

/-- The pair `(error, <-chan error)` returned by `lorneAttach`, with what its own
path did to the connection: whether it closed it, how many bytes it read from
it, and the goroutine it started. -/
structure AttachResult where
  err : Option GoError
  errChan : Option ErrChan
  closed : Bool
  bytesRead : Nat
  spawned : Option Goroutine
  deriving DecidableEq, Repr

/-- The function `lorneAttach` of `server.go`, up to its return. -/
def lorneAttach (net : Network) (sb : StatusBytes) (host : GoString) (req : AttachReq) :
    AttachResult :=
  match net.Services ("flynn-lorne-attach.".toList ++ host) with
  | .error err => ⟨some err, none, false, 0, none⟩
  | .ok addrs =>
    match addrs with
    | [] =>
      -- `return err, nil` with the nil `err` of the successful lookup
      ⟨none, none, false, 0, none⟩
    | addr :: _ =>
      match net.Dial addr with
      | .error err => ⟨some err, none, false, 0, none⟩
      | .ok conn =>
        match net.Encode req with
        | some err => ⟨some err, none, true, 0, none⟩
        | none =>
          match conn.Read with
          | .error err => ⟨some err, none, true, 0, none⟩
          | .ok (attachState, conn) =>
            if attachState = sb.AttachError then
              match ReadAll conn with
              | (_, some err) => ⟨some err, none, true, 1 + conn.incoming.length, none⟩
              | (errBytes, none) =>
                ⟨some (.new errBytes), none, true, 1 + conn.incoming.length, none⟩
            else if attachState = sb.AttachWaiting then
              ⟨none, some .made, false, 1, some (.awaitStatus conn)⟩
            else
              ⟨none, some .made, false, 1, some (.attach conn)⟩

/-- What the goroutine of the `AttachWaiting` case does with the second status
byte: it sends an error on `errChan` after closing the connection, or it runs
the copy loop `attach` on the rest of the stream. -/
inductive AwaitOutcome where
  | sendsError (e : GoError)
  | attaches (conn : Conn)
  deriving DecidableEq, Repr

/-- The goroutine of the `AttachWaiting` case. -/
def awaitStatus (sb : StatusBytes) (conn : Conn) : AwaitOutcome :=
  match conn.Read with
  | .error err => .sendsError err
  | .ok (attachState, conn) =>
    if attachState = sb.AttachError then
      match ReadAll conn with
      | (_, some err) => .sendsError err
      | (errBytes, none) => .sendsError (.new errBytes)
    else
      .attaches conn

/-- The struct `NewJob` of `server.go`; `Env` is a map. -/
structure NewJob where
  Cmd : List GoString
  Env : List (GoString × GoString)
  Attach : Bool
  TTY : Bool
  Columns : Int
  Lines : Int
  deriving DecidableEq, Repr

/-- How `runJob` ends: it returns after `WriteHeader(status)`, or it has written
the status and hijacked the connection and is at the receive `<-errChan`.  A
receive from a nil channel (`none`) blocks forever. -/
inductive RunJobEnd where
  | wrote (status : Nat)
  | receivesFrom (status : Nat) (errChan : Option ErrChan)
  deriving DecidableEq, Repr

/-- One run of `runJob`: the result of `lorneAttach` if it was called, the
Schedule requests made, and how the handler ends. -/
structure RunJobResult where
  attach : Option AttachResult
  scheduled : List ScheduleReq
  ending : RunJobEnd
  deriving DecidableEq, Repr

/-- The host picked by `for hostID = range state { break }`: the first key the
pass visits, or the empty string for an empty map. -/
def pickHost (state : State) : GoString :=
  match state with
  | [] => []
  | (hostID, _) :: _ => hostID

/-- The job built by `runJob`. -/
def runJobJob (app_id : GoString) (b : List Byte) (jobReq : NewJob) : Job :=
  let env := jobReq.Env.map fun kv => kv.1 ++ "=".toList ++ kv.2
  let config : Config :=
    { Image := "ubuntu".toList, Cmd := jobReq.Cmd, AttachStdin := true, AttachStdout := true,
      AttachStderr := true, StdinOnce := true, Env := env }
  let config := if jobReq.TTY then { config with Tty := true } else config
  let config :=
    if jobReq.Attach then
      { config with AttachStdin := true, StdinOnce := true, OpenStdin := true }
    else config
  { ID := app_id ++ "-run.".toList ++ randomID b, Config := some config }

/-- The flags `AttachFlagStdout | AttachFlagStderr | AttachFlagStdin |
AttachFlagStream` of the attach request. -/
def attachFlags : List AttachFlag :=
  [.AttachFlagStdout, .AttachFlagStderr, .AttachFlagStdin, .AttachFlagStream]

/-- The handler `runJob` of `server.go`.  `decoded` is the outcome of decoding
the body, `b` the 16 bytes a successful read delivers to its call of `randomID`,
`hijack` whether `Hijack()` succeeds. -/
def runJob (decoded : Except GoError NewJob) (sched : Scheduler) (net : Network)
    (sb : StatusBytes) (b : List Byte) (hijack : Bool) (app_id : GoString) : RunJobResult :=
  match decoded with
  | .error _ => ⟨none, [], .wrote 500⟩
  | .ok jobReq =>
    match sched.State with
    | .error _ => ⟨none, [], .wrote 500⟩
    | .ok state =>
      let hostID := pickHost state
      if hostID = [] then ⟨none, [], .wrote 500⟩
      else
        let job := runJobJob app_id b jobReq
        let attached : Option AttachResult :=
          if jobReq.Attach then
            some (lorneAttach net sb hostID ⟨job.ID, attachFlags, 0, 0⟩)
          else none
        match attached.bind (fun a => a.err) with
        | some _ => ⟨attached, [], .wrote 500⟩
        | none =>
          let schedReq : ScheduleReq := ⟨[(hostID, [job])]⟩
          match sched.Schedule schedReq with
          | .transportError _ => ⟨attached, [schedReq], .wrote 500⟩
          | .result success =>
            if !success then ⟨attached, [schedReq], .wrote 500⟩
            else if jobReq.Attach then
              if hijack then
                ⟨attached, [schedReq], .receivesFrom 200 (attached.bind fun a => a.errChan)⟩
              else ⟨attached, [schedReq], .wrote 200⟩
            else ⟨attached, [schedReq], .wrote 200⟩

/-- The response of a scale-up, from the outcome of the Schedule call. -/
def scaleUpResponse (out : ScheduleOutcome) (req : Formation) : Response :=
  match out with
  | .transportError err => ⟨500, none, some err⟩
  | .result success => if !success then ⟨500, none, none⟩ else ⟨200, some req, none⟩

/-! ## Example inputs -/

/-- A snapshot with two hosts: `h1` runs nothing, `h2` runs `app1-web.x` and
`app10-web.y`. -/
def exampleState : State :=
  [("h1".toList, ⟨"h1".toList, []⟩),
   ("h2".toList, ⟨"h2".toList, [{ ID := "app1-web.x".toList }, { ID := "app10-web.y".toList }]⟩)]

/-- A scheduler that reports `exampleState` and accepts every request. -/
def exampleScheduler : Scheduler := ⟨.ok exampleState, fun _ => .result true⟩

/-- A random source that reads sixteen zero bytes every time. -/
def exampleBytes : Nat → RandRead := fun _ => .ok ⟨List.replicate 16 0, by decide⟩

/-- A random source whose every read fails. -/
def failingBytes : Nat → RandRead := fun _ => .error (.ext "read failed".toList)

/-! ## Theorems: identifiers -/

theorem encodeAt_urlSafe (i : Nat) (h : i < 64) :
    isURLSafe (encodeAt i) = true ∧ encodeAt i ≠ padChar := by
  interval_cases i <;> decide

theorem encodeAt_mask (v : Nat) :
    isURLSafe (encodeAt (v &&& 0x3F)) = true ∧ encodeAt (v &&& 0x3F) ≠ padChar := by
  apply encodeAt_urlSafe
  have := @Nat.and_le_right v 0x3F
  omega

theorem TrimRight_pad (s : List Char) (hs : ∀ c ∈ s, c ≠ padChar) :
    TrimRight (s ++ [padChar, padChar]) [padChar] = s := by
  have hrev : (s.reverse).dropWhile (fun c => [padChar].contains c) = s.reverse := by
    cases hr : s.reverse with
    | nil => rfl
    | cons x xs =>
      have hx : x ∈ s := by
        have : x ∈ s.reverse := by rw [hr]; exact List.mem_cons_self _ _
        exact List.mem_reverse.mp this
      have hne : x ≠ padChar := hs x hx
      simp [List.dropWhile, hne]
  unfold TrimRight
  simp only [List.reverse_append, List.reverse_cons, List.reverse_nil, List.nil_append,
    List.singleton_append, List.cons_append]
  have hp : [padChar].contains padChar = true := by decide
  simp only [List.dropWhile, hp]
  rw [hrev, List.reverse_reverse]

theorem Encode_sixteen (b : List Byte) (hb : b.length = 16) :
    ∃ s : List Char, Encode b = s ++ [padChar, padChar] ∧ s.length = 22 ∧
      ∀ c ∈ s, isURLSafe c = true ∧ c ≠ padChar := by
  match b, hb with
  | [b0, b1, b2, b3, b4, b5, b6, b7, b8, b9, b10, b11, b12, b13, b14, b15], _ =>
    refine ⟨(Encode [b0, b1, b2, b3, b4, b5, b6, b7, b8, b9, b10, b11, b12, b13, b14, b15]).take 22,
      ?_, ?_, ?_⟩
    · simp [Encode]
    · simp [Encode]
    · intro c hc
      simp only [Encode, List.take, List.mem_cons, List.mem_nil_iff, or_false] at hc
      rcases hc with h | h | h | h | h | h | h | h | h | h | h | h | h | h | h | h | h | h | h | h | h | h <;>
        (subst h; exact encodeAt_mask _)

/-- C4. For every 16-byte value read from the random source, `randomID` returns
the URL-safe base64 encoding of the bytes with the two trailing padding
characters stripped: 22 characters, each from `A-Z a-z 0-9 - _`, none of them
the padding character `=`. -/
theorem randomID_shape (b : List Byte) (hb : b.length = 16) :
    (randomID b).length = 22 ∧
    (∀ c ∈ randomID b, isURLSafe c = true) ∧
    padChar ∉ randomID b ∧
    Encode b = randomID b ++ [padChar, padChar] := by
  obtain ⟨s, hs, hlen, hall⟩ := Encode_sixteen b hb
  have ht : randomID b = s := by
    unfold randomID
    rw [hs]
    exact TrimRight_pad s (fun c hc => (hall c hc).2)
  rw [ht]
  exact ⟨hlen, fun c hc => (hall c hc).1, fun hmem => (hall _ hmem).2 rfl, hs⟩

/-- Witness for C4: the sixteen zero bytes give `AAAAAAAAAAAAAAAAAAAAAA`. -/
theorem randomID_shape_witness :
    (List.replicate 16 (0 : Byte)).length = 16 ∧
    randomID (List.replicate 16 (0 : Byte)) = List.replicate 22 'A' ∧
    (randomID (List.replicate 16 (0 : Byte))).length = 22 :=
  ⟨by decide, by decide, (randomID_shape (List.replicate 16 (0 : Byte)) (by decide)).1⟩

/-! ## Theorems: Go maps and the scale-up loop -/

theorem mapGet_mapSet {ν : Type} (m : List (GoString × ν)) (k k' : GoString) (v : ν) :
    mapGet (mapSet m k v) k' = if k = k' then some v else mapGet m k' := by
  induction m with
  | nil =>
    by_cases h : k = k' <;> simp [mapSet, mapGet, h]
  | cons e rest ih =>
    obtain ⟨k0, v0⟩ := e
    by_cases h0 : k0 = k
    · subst h0
      by_cases h : k0 = k' <;> simp [mapSet, mapGet, h]
    · by_cases h : k = k'
      · subst h
        simp [mapSet, mapGet, h0, ih]
      · by_cases h1 : k0 = k'
        · subst h1
          simp [mapSet, mapGet, h0, h]
        · simp [mapSet, mapGet, h0, h1, ih, h]

theorem mapKeys_mapSet {ν : Type} (m : List (GoString × ν)) (k : GoString) (v : ν) :
    ∀ x ∈ mapKeys (mapSet m k v), x = k ∨ x ∈ mapKeys m := by
  induction m with
  | nil =>
    intro x hx
    simp only [mapSet, mapKeys, List.map_cons, List.map_nil, List.mem_singleton] at hx
    exact Or.inl hx
  | cons e rest ih =>
    obtain ⟨k0, v0⟩ := e
    intro x hx
    by_cases h0 : k0 = k
    · simp only [mapSet, h0, if_true, mapKeys, List.map_cons, List.mem_cons] at hx ⊢
      rcases hx with hx | hx
      · exact Or.inl hx
      · exact Or.inr (Or.inr hx)
    · simp only [mapSet, h0, if_false, mapKeys, List.map_cons, List.mem_cons] at hx ⊢
      rcases hx with hx | hx
      · exact Or.inr (Or.inl hx)
      · rcases ih x hx with h | h
        · exact Or.inl h
        · exact Or.inr (Or.inr h)

theorem slotLen_appendJob (hj : List (GoString × List Job)) (h h' : GoString) (j : Job) :
    slotLen (appendJob hj h j) h' = slotLen hj h' + (if h = h' then 1 else 0) := by
  unfold slotLen appendJob
  rw [mapGet_mapSet]
  by_cases hh : h = h'
  · subst hh; simp
  · simp [hh]

theorem slotSum_appendJob (hj : List (GoString × List Job)) (h : GoString) (j : Job) :
    slotSum (appendJob hj h j) = slotSum hj + 1 := by
  unfold appendJob
  induction hj with
  | nil => simp [mapSet, mapGet, slotSum]
  | cons e rest ih =>
    obtain ⟨k0, v0⟩ := e
    by_cases h0 : k0 = h
    · simp [mapSet, mapGet, slotSum, h0]; omega
    · simp only [mapSet, mapGet, h0, if_false]
      simp only [slotSum, List.map_cons, List.sum_cons] at ih ⊢
      omega

theorem mapKeys_appendJob (hj : List (GoString × List Job)) (h : GoString) (j : Job) :
    ∀ x ∈ mapKeys (appendJob hj h j), x = h ∨ x ∈ mapKeys hj :=
  mapKeys_mapSet hj h _

theorem innerPass_spec (pfx : GoString) (rnd : Nat → RandRead) :
    ∀ (hosts : List GoString) (st : LoopState) (d : Nat),
      st.diff = (d : Int) → 1 ≤ d → st.broke = false →
      (∀ k, st.drawn ≤ k → k < st.drawn + d → ∃ b, rnd k = .ok b) →
      ∃ r, innerPass pfx rnd hosts st = some r ∧
        r.diff = (d : Int) - (min d hosts.length : Nat) ∧
        r.broke = decide (d ≤ hosts.length) ∧
        r.drawn = st.drawn + min d hosts.length ∧
        (∀ h, slotLen r.hostJobs h
            = slotLen st.hostJobs h
              + (hosts.take (min d hosts.length)).countP (fun x => decide (x = h))) ∧
        slotSum r.hostJobs = slotSum st.hostJobs + min d hosts.length ∧
        (∀ x ∈ mapKeys r.hostJobs, x ∈ mapKeys st.hostJobs ∨ x ∈ hosts) := by
  intro hosts
  induction hosts with
  | nil =>
    intro st d hd h1 hb _
    have hdec : decide (d ≤ 0) = false := by simp; omega
    refine ⟨st, rfl, ?_⟩
    simp [hd, hb, hdec]
    omega
  | cons host rest ih =>
    intro st d hd h1 hb hr
    obtain ⟨b, hread⟩ := hr st.drawn (Nat.le_refl _) (by omega)
    by_cases hone : d = 1
    · subst hone
      have hz : st.diff - 1 = 0 := by rw [hd]; simp
      refine ⟨⟨appendJob st.hostJobs host ⟨pfx ++ randomID b.val, some formationConfig, none⟩,
        st.diff - 1, st.drawn + 1, true⟩, ?_, ?_, ?_, ?_, ?_, ?_, ?_⟩
      · simp only [innerPass, hread, readRandomID, hz, if_true]
      · simp [hz]
      · simp
      · simp
      · intro h
        simp only
        rw [slotLen_appendJob]
        by_cases hh : host = h
        · subst hh; simp [List.countP_cons]
        · simp [hh, List.countP_cons]
      · simp only
        rw [slotSum_appendJob]; simp
      · intro x hx
        rcases mapKeys_appendJob _ _ _ x hx with h | h
        · right; simp [h]
        · exact Or.inl h
    · have hnz : ¬ (st.diff - 1 = 0) := by rw [hd]; omega
      obtain ⟨r, e0, i1, i2, i2', i3, i4, i5⟩ := ih
        ⟨appendJob st.hostJobs host ⟨pfx ++ randomID b.val, some formationConfig, none⟩,
          st.diff - 1, st.drawn + 1, false⟩ (d - 1) (by simp only [hd]; omega) (by omega) rfl
        (fun k hk1 hk2 => hr k (by simp only at hk1; omega) (by simp only at hk2; omega))
      have hmin : min d (host :: rest).length = min (d - 1) rest.length + 1 := by
        simp only [List.length_cons]; omega
      refine ⟨r, ?_, ?_, ?_, ?_, ?_, ?_, ?_⟩
      · simp only [innerPass, hread, readRandomID, hnz, if_false]
        exact e0
      · rw [i1, hmin]; omega
      · rw [i2]; simp only [List.length_cons, decide_eq_decide]; omega
      · rw [i2', hmin]; simp only; omega
      · intro h
        rw [i3 h, hmin, slotLen_appendJob, List.take_succ_cons, List.countP_cons]
        by_cases hh : host = h
        · subst hh; simp; omega
        · simp [hh]
      · rw [i4, hmin, slotSum_appendJob]; omega
      · intro x hx
        rcases i5 x hx with h | h
        · rcases mapKeys_appendJob _ _ _ x h with h' | h'
          · right; simp [h']
          · exact Or.inl h'
        · right; simp [h]

theorem countP_eq_of_nodup (l : List GoString) (hnd : l.Nodup) (h : GoString) :
    l.countP (fun x => decide (x = h)) = if h ∈ l then 1 else 0 := by
  induction l with
  | nil => simp
  | cons a rest ih =>
    have hnd' := List.nodup_cons.mp hnd
    rw [List.countP_cons, ih hnd'.2]
    by_cases ha : a = h
    · subst ha
      simp [hnd'.1]
    · have ha' : ¬ h = a := fun e => ha e.symm
      simp [ha, ha']

theorem floor_step (d n : Nat) (hn : 0 < n) (h : n ≤ d) : d / n = (d - n) / n + 1 := by
  have e : d = (d - n) + n := by omega
  calc d / n = ((d - n) + n) / n := by rw [← e]
    _ = (d - n) / n + 1 := Nat.add_div_right _ hn

theorem ceil_step (d n : Nat) (hn : 0 < n) (h : n < d) :
    (d + n - 1) / n = ((d - n) + n - 1) / n + 1 := by
  have e : d + n - 1 = ((d - n) + n - 1) + n := by omega
  calc (d + n - 1) / n = (((d - n) + n - 1) + n) / n := by rw [← e]
    _ = ((d - n) + n - 1) / n + 1 := Nat.add_div_right _ hn

theorem ceil_small (d n : Nat) (h1 : 1 ≤ d) (h : d ≤ n) : (d + n - 1) / n = 1 := by
  have hn : 0 < n := by omega
  have e : d + n - 1 = (d - 1) + n := by omega
  rw [e, Nat.add_div_right _ hn, Nat.div_eq_of_lt (by omega)]

theorem outerLoop_spec (pfx : GoString) (rnd : Nat → RandRead) (order : RangeOrder)
    (keys : List GoString) (hnd : keys.Nodup) (hne : keys ≠ []) :
    ∀ (fuel pass : Nat) (st : LoopState) (d : Nat),
      st.diff = (d : Int) → 1 ≤ d → st.broke = false → d ≤ fuel →
      (∀ k, st.drawn ≤ k → k < st.drawn + d → ∃ b, rnd k = .ok b) →
      ∃ r, outerLoop pfx rnd order keys fuel pass st = .done r ∧
        slotSum r.hostJobs = slotSum st.hostJobs + d ∧
        (∀ h ∈ keys, slotLen r.hostJobs h = slotLen st.hostJobs h + d / keys.length ∨
          slotLen r.hostJobs h = slotLen st.hostJobs h + (d + keys.length - 1) / keys.length) ∧
        (∀ x ∈ mapKeys r.hostJobs, x ∈ mapKeys st.hostJobs ∨ x ∈ keys) := by
  have hn : 0 < keys.length := List.length_pos.mpr hne
  intro fuel
  induction fuel with
  | zero => intro pass st d _ h1 _ hf; omega
  | succ fuel ih =>
    intro pass st d hd h1 hb hf hr
    have hperm := order.perm pass keys
    have hlen : (order.visit pass keys).length = keys.length := hperm.length_eq
    have hnd' : (order.visit pass keys).Nodup := hperm.nodup_iff.mpr hnd
    obtain ⟨r1, e0, i1, i2, i2', i3, i4, i5⟩ :=
      innerPass_spec pfx rnd (order.visit pass keys) st d hd h1 hb hr
    rw [hlen] at i1 i2 i2' i3 i4
    by_cases hle : d ≤ keys.length
    · have hbroke : r1.broke = true := by
        rw [i2]; simpa using hle
      refine ⟨r1, ?_, ?_, ?_, ?_⟩
      · simp [outerLoop, e0, hbroke]
      · rw [i4, Nat.min_eq_left hle]
      · intro h hh
        rw [i3 h, Nat.min_eq_left hle]
        have hsub : ((order.visit pass keys).take d).Nodup :=
          List.Nodup.sublist (List.take_sublist _ _) hnd'
        have hc : ((order.visit pass keys).take d).countP (fun x => decide (x = h)) ≤ 1 := by
          rw [countP_eq_of_nodup _ hsub h]; split <;> omega
        by_cases hlt : d < keys.length
        · rw [Nat.div_eq_of_lt hlt, ceil_small d keys.length h1 hle]
          omega
        · have hdn : d = keys.length := by omega
          right
          rw [ceil_small d keys.length h1 hle]
          have hall : (order.visit pass keys).take d = order.visit pass keys := by
            apply List.take_of_length_le; omega
          rw [hall, countP_eq_of_nodup _ hnd' h, if_pos (hperm.mem_iff.mpr hh)]
      · intro x hx
        rcases i5 x hx with h | h
        · exact Or.inl h
        · exact Or.inr (hperm.mem_iff.mp h)
    · have hgt : keys.length < d := by omega
      have hbroke : r1.broke = false := by
        rw [i2]; simpa using hgt
      have hmin : min d keys.length = keys.length := Nat.min_eq_right (by omega)
      rw [hmin] at i1 i2' i3 i4
      obtain ⟨r, e1, e2, e3, e4⟩ := ih (pass + 1) r1
        (d - keys.length) (by rw [i1]; omega) (by omega) hbroke (by omega)
        (fun k hk1 hk2 => hr k (by omega) (by omega))
      refine ⟨r, ?_, ?_, ?_, ?_⟩
      · simp [outerLoop, e0, hbroke, e1]
      · rw [e2, i4]; omega
      · intro h hh
        have hall : (order.visit pass keys).take keys.length = order.visit pass keys := by
          apply List.take_of_length_le; omega
        have h3 := i3 h
        rw [hall, countP_eq_of_nodup _ hnd' h, if_pos (hperm.mem_iff.mpr hh)] at h3
        rw [floor_step d keys.length hn (by omega), ceil_step d keys.length hn hgt]
        rcases e3 h hh with e | e
        · left; rw [e, h3]; omega
        · right; rw [e, h3]; omega
      · intro x hx
        rcases e4 x hx with h | h
        · rcases i5 x h with h' | h'
          · exact Or.inl h'
          · exact Or.inr (hperm.mem_iff.mp h')
        · exact Or.inr h

/-- With no host the scale-up loop never takes `break outer`: no number of
passes ends it. -/
theorem outerLoop_no_hosts (pfx : GoString) (rnd : Nat → RandRead) (order : RangeOrder) :
    ∀ (fuel pass : Nat) (st : LoopState), st.broke = false →
      outerLoop pfx rnd order [] fuel pass st = .outOfFuel := by
  intro fuel
  induction fuel with
  | zero => intro pass st _; rfl
  | succ fuel ih =>
    intro pass st hb
    have hnil : order.visit pass [] = [] := List.Perm.eq_nil (order.perm pass [])
    simp only [outerLoop, hnil, innerPass, hb]
    exact ih (pass + 1) st hb

/-! ## Theorems: `changeFormation` -/

theorem length_matchedJobs (state : State) (pfx : GoString) :
    (matchedJobs state pfx).length = matchCount state pfx := by
  unfold matchedJobs matchCount
  induction state with
  | nil => simp
  | cons e rest ih =>
    simp only [List.flatMap_cons, List.length_append, List.length_map, List.filter_append]
    rw [ih]

theorem clamp_of_nonneg (req : Formation) (h : 0 ≤ req.Quantity) : clamp req = req := by
  unfold clamp
  rw [if_neg (by omega)]

theorem clamp_quantity (req : Formation) : (clamp req).Quantity = max 0 req.Quantity := by
  unfold clamp
  by_cases h : req.Quantity < 0
  · rw [if_pos h]; simp; omega
  · rw [if_neg h]; omega

theorem clamp_typ (req : Formation) : (clamp req).Typ = req.Typ := by
  unfold clamp
  by_cases h : req.Quantity < 0
  · rw [if_pos h]
  · rw [if_neg h]

theorem changeFormation_scaleUp (sched : Scheduler) (order : RangeOrder)
    (rnd : Nat → RandRead) (fuel : Nat) (app_id formation_id : GoString) (req : Formation)
    (state : State) (hst : sched.State = .ok state)
    (hnd : (mapKeys state).Nodup) (hne : mapKeys state ≠ [])
    (hq : (matchCount state (formationPrefix app_id formation_id) : Int) < req.Quantity)
    (hf : (req.Quantity - matchCount state (formationPrefix app_id formation_id)).toNat ≤ fuel)
    (hr : ∀ k,
      k < (req.Quantity - matchCount state (formationPrefix app_id formation_id)).toNat →
      ∃ b, rnd k = .ok b) :
    ∃ sreq : ScheduleReq,
      changeFormation sched order rnd fuel app_id formation_id req
        = ⟨[.state, .schedule sreq], .returned (scaleUpResponse (sched.Schedule sreq) req)⟩ ∧
      (totalJobs sreq : Int) = req.Quantity - matchCount state (formationPrefix app_id formation_id) ∧
      (∀ h ∈ mapKeys state,
        jobsOn sreq h
            = (req.Quantity - matchCount state (formationPrefix app_id formation_id)).toNat
              / (mapKeys state).length ∨
        jobsOn sreq h
            = ((req.Quantity - matchCount state (formationPrefix app_id formation_id)).toNat
              + (mapKeys state).length - 1) / (mapKeys state).length) ∧
      (∀ x ∈ mapKeys sreq.HostJobs, x ∈ mapKeys state) := by
  have hc : clamp req = req := clamp_of_nonneg req (by omega)
  obtain ⟨r, e1, e2, e3, e4⟩ := outerLoop_spec (formationPrefix app_id formation_id) rnd order
    (mapKeys state) hnd hne fuel 0
    ⟨[], req.Quantity - matchCount state (formationPrefix app_id formation_id), 0, false⟩
    (req.Quantity - matchCount state (formationPrefix app_id formation_id)).toNat
    (by simp only; omega) (by omega) rfl hf
    (fun k _ hk => hr k (by simp only at hk; omega))
  refine ⟨⟨r.hostJobs⟩, ?_, ?_, ?_, ?_⟩
  · unfold changeFormation
    simp only [hst, hc, length_matchedJobs]
    rw [if_pos (by omega), e1]
    simp only [scaleUpResponse]
    cases sched.Schedule ⟨r.hostJobs⟩ with
    | transportError err => rfl
    | result success => cases success <;> rfl
  · have hz : slotSum ([] : List (GoString × List Job)) = 0 := rfl
    simp only [totalJobs, e2, hz]
    omega
  · intro h hh
    simpa [jobsOn, slotLen, mapGet] using e3 h hh
  · intro x hx
    rcases e4 x hx with h | h
    · simp [mapKeys] at h
    · exact h

/-- A scale-up whose first call of `randomID` meets a failed read panics: the
state fetch is the only outward call and no response is returned. -/
theorem changeFormation_panics_on_failed_read (sched : Scheduler) (order : RangeOrder)
    (rnd : Nat → RandRead) (fuel : Nat) (app_id formation_id : GoString) (req : Formation)
    (state : State) (err : GoError) (hst : sched.State = .ok state)
    (hne : mapKeys state ≠ [])
    (hq : (matchCount state (formationPrefix app_id formation_id) : Int) < req.Quantity)
    (hread : rnd 0 = .error err) :
    changeFormation sched order rnd (fuel + 1) app_id formation_id req
      = ⟨[.state], .panicked⟩ := by
  have hc : clamp req = req := clamp_of_nonneg req (by omega)
  have hvis : order.visit 0 (mapKeys state) ≠ [] := by
    intro h
    have hp := order.perm 0 (mapKeys state)
    rw [h] at hp
    exact hne (List.Perm.nil_eq hp).symm
  unfold changeFormation
  simp only [hst, hc, length_matchedJobs]
  rw [if_pos (by omega)]
  cases hv : order.visit 0 (mapKeys state) with
  | nil => exact absurd hv hvis
  | cons host rest =>
    simp only [outerLoop, hv, innerPass, hread, readRandomID]

theorem changeFormation_stateError (sched : Scheduler) (order : RangeOrder)
    (rnd : Nat → RandRead) (fuel : Nat) (app_id formation_id : GoString) (req : Formation)
    (err : GoError) (hst : sched.State = .error err) :
    changeFormation sched order rnd fuel app_id formation_id req
      = ⟨[.state], .returned ⟨500, none, some err⟩⟩ := by
  unfold changeFormation
  simp only [hst]

theorem sliceTo_scaleDown (jobs : List Job) (q : Int) (h0 : 0 ≤ q) (hlt : q - jobs.length < 0) :
    sliceTo jobs (-(q - jobs.length)) = some (jobs.take (jobs.length - q.toNat)) := by
  unfold sliceTo
  rw [if_pos (by omega)]
  congr 2
  omega

theorem changeFormation_noScaleUp (sched : Scheduler) (order : RangeOrder)
    (rnd : Nat → RandRead) (fuel : Nat) (app_id formation_id : GoString) (req : Formation)
    (state : State) (hst : sched.State = .ok state)
    (hq : req.Quantity ≤ matchCount state (formationPrefix app_id formation_id)) :
    changeFormation sched order rnd fuel app_id formation_id req
      = ⟨[.state], .returned ⟨200, some (clamp req), none⟩⟩ := by
  have hcq := clamp_quantity req
  unfold changeFormation
  simp only [hst]
  rw [if_neg (by rw [length_matchedJobs]; omega)]
  by_cases hlt : (clamp req).Quantity
      - ((matchedJobs state (formationPrefix app_id formation_id)).length : Int) < 0
  · rw [if_pos hlt, sliceTo_scaleDown _ _ (by omega) hlt]
  · rw [if_neg hlt]

theorem ceil_le_floor_succ (d n : Nat) (hn : 0 < n) : (d + n - 1) / n ≤ d / n + 1 := by
  calc (d + n - 1) / n ≤ (d + n) / n := Nat.div_le_div_right (by omega)
    _ = d / n + 1 := Nat.add_div_right _ hn

theorem floor_le_ceil (d n : Nat) (hn : 0 < n) : d / n ≤ (d + n - 1) / n :=
  Nat.div_le_div_right (by omega)

/-- C2 as stated fails: on the two hosts of `exampleState`, with `diff = 3` for
`app2`/`web`, the first call of `randomID` reads from a random source that
fails and panics; no Schedule request is submitted and the handler does not
return. -/
theorem changeFormation_round_robin_fails_on_failed_read :
    ((mapKeys exampleState).Nodup ∧ (mapKeys exampleState).length = 2 ∧
      (3 : Int) - matchCount exampleState (formationPrefix "app2".toList "web".toList) = 3) ∧
    scheduleCalls (changeFormation exampleScheduler RangeOrder.asListed failingBytes 3
        "app2".toList "web".toList ⟨3, "web".toList⟩).effects = [] ∧
    (changeFormation exampleScheduler RangeOrder.asListed failingBytes 3
        "app2".toList "web".toList ⟨3, "web".toList⟩).outcome = .panicked := by
  refine ⟨by decide, by decide, by decide⟩

/-- C2, amended. Round-robin scale-up: on a snapshot with at least one host and a
positive `diff = q - c`, whatever order each pass over the host map takes, when
the read of the random source succeeds in each of the `diff` calls of
`randomID`, `changeFormation` makes a single Schedule call; its request holds
exactly `diff` new jobs, only on hosts of the snapshot, and every host of the
snapshot gets `floor(diff/n)` or `ceil(diff/n)` of them, so two hosts differ by
at most one. -/
theorem changeFormation_round_robin (sched : Scheduler) (order : RangeOrder)
    (rnd : Nat → RandRead) (fuel : Nat) (app_id formation_id : GoString) (req : Formation)
    (state : State) (hst : sched.State = .ok state)
    (hnd : (mapKeys state).Nodup) (hne : mapKeys state ≠ [])
    (hq : (matchCount state (formationPrefix app_id formation_id) : Int) < req.Quantity)
    (hf : (req.Quantity - matchCount state (formationPrefix app_id formation_id)).toNat ≤ fuel)
    (hr : ∀ k,
      k < (req.Quantity - matchCount state (formationPrefix app_id formation_id)).toNat →
      ∃ b, rnd k = .ok b) :
    ∃ sreq : ScheduleReq,
      scheduleCalls (changeFormation sched order rnd fuel app_id formation_id req).effects
        = [sreq] ∧
      (totalJobs sreq : Int)
        = req.Quantity - matchCount state (formationPrefix app_id formation_id) ∧
      (∀ x ∈ mapKeys sreq.HostJobs, x ∈ mapKeys state) ∧
      (∀ h ∈ mapKeys state,
        jobsOn sreq h
            = (req.Quantity - matchCount state (formationPrefix app_id formation_id)).toNat
              / (mapKeys state).length ∨
        jobsOn sreq h
            = ((req.Quantity - matchCount state (formationPrefix app_id formation_id)).toNat
              + (mapKeys state).length - 1) / (mapKeys state).length) ∧
      (∀ h ∈ mapKeys state, ∀ h' ∈ mapKeys state, jobsOn sreq h ≤ jobsOn sreq h' + 1) := by
  obtain ⟨sreq, hrun, htot, hper, hkeys⟩ := changeFormation_scaleUp sched order rnd fuel app_id
    formation_id req state hst hnd hne hq hf hr
  have hn : 0 < (mapKeys state).length := List.length_pos.mpr hne
  refine ⟨sreq, ?_, htot, hkeys, hper, ?_⟩
  · rw [hrun]; rfl
  · intro h hh h' hh'
    have c1 := ceil_le_floor_succ
      (req.Quantity - matchCount state (formationPrefix app_id formation_id)).toNat _ hn
    have c2 := floor_le_ceil
      (req.Quantity - matchCount state (formationPrefix app_id formation_id)).toNat _ hn
    rcases hper h hh with e | e <;> rcases hper h' hh' with e' | e' <;> omega

/-- Witness for C2: desired quantity 3 for `app2`/`web`, which has no job, on
the two hosts of `exampleState`, the second pass running backwards and every
read of the random source succeeding: one Schedule call with 3 jobs, 1 on `h1`
and 2 on `h2`. -/
theorem changeFormation_round_robin_witness :
    ((mapKeys exampleState).Nodup ∧ mapKeys exampleState ≠ [] ∧
      (matchCount exampleState (formationPrefix "app2".toList "web".toList) : Int) < 3 ∧
      ∀ k, k < 3 → ∃ b, exampleBytes k = .ok b) ∧
    (scheduleCalls (changeFormation exampleScheduler RangeOrder.alternating exampleBytes 3
        "app2".toList "web".toList ⟨3, "web".toList⟩).effects).map
        (fun r => (totalJobs r, jobsOn r "h1".toList, jobsOn r "h2".toList)) = [(3, 1, 2)] ∧
    ∃ sreq : ScheduleReq,
      scheduleCalls (changeFormation exampleScheduler RangeOrder.alternating exampleBytes 3
        "app2".toList "web".toList ⟨3, "web".toList⟩).effects = [sreq] ∧
      ∀ h ∈ mapKeys exampleState, ∀ h' ∈ mapKeys exampleState,
        jobsOn sreq h ≤ jobsOn sreq h' + 1 :=
  ⟨⟨by decide, by decide, by decide, fun _ _ => ⟨_, rfl⟩⟩, by decide,
    (changeFormation_round_robin exampleScheduler RangeOrder.alternating exampleBytes 3
      "app2".toList "web".toList ⟨3, "web".toList⟩ exampleState rfl (by decide) (by decide)
      (by decide) (by decide) (fun _ _ => ⟨_, rfl⟩)).imp fun _ h => ⟨h.1, h.2.2.2.2⟩⟩

/-- C5. Idempotence: when the desired quantity equals the number of jobs of the
snapshot that match the formation's prefix, `changeFormation` makes no Schedule
call and no termination call, and returns status 200 with the requested
formation unchanged. -/
theorem changeFormation_idempotent (sched : Scheduler) (order : RangeOrder)
    (rnd : Nat → RandRead) (fuel : Nat) (app_id formation_id : GoString) (req : Formation)
    (state : State) (hst : sched.State = .ok state)
    (hq : req.Quantity = matchCount state (formationPrefix app_id formation_id)) :
    scheduleCalls (changeFormation sched order rnd fuel app_id formation_id req).effects = [] ∧
    terminationCalls (changeFormation sched order rnd fuel app_id formation_id req).effects = [] ∧
    (changeFormation sched order rnd fuel app_id formation_id req).outcome
      = .returned ⟨200, some req, none⟩ := by
  rw [changeFormation_noScaleUp sched order rnd fuel app_id formation_id req state hst
    (by omega), clamp_of_nonneg req (by omega)]
  exact ⟨rfl, rfl, rfl⟩

/-- Witness for C5: `app1`/`web` has one job in `exampleState`; asking for
quantity 1 calls nothing and returns 200. -/
theorem changeFormation_idempotent_witness :
    ((1 : Int) = matchCount exampleState (formationPrefix "app1".toList "web".toList)) ∧
    (changeFormation exampleScheduler RangeOrder.asListed exampleBytes 0
        "app1".toList "web".toList ⟨1, "web".toList⟩).outcome
      = .returned ⟨200, some ⟨1, "web".toList⟩, none⟩ :=
  ⟨by decide,
    (changeFormation_idempotent exampleScheduler RangeOrder.asListed exampleBytes 0
      "app1".toList "web".toList ⟨1, "web".toList⟩ exampleState rfl (by decide)).2.2⟩

/-- C6 as stated fails: on `exampleState` (two hosts) the request `app1`/`web`
with quantity 2 has `diff = 1`; the state fetch succeeds, the call of
`randomID` panics on a failed read before any Schedule call is made, and the
handler returns neither status 500 nor status 200. -/
theorem changeFormation_response_fails_on_failed_read :
    exampleScheduler.State = .ok exampleState ∧ mapKeys exampleState ≠ [] ∧
    scheduleCalls (changeFormation exampleScheduler RangeOrder.asListed failingBytes 1
        "app1".toList "web".toList ⟨2, "web".toList⟩).effects = [] ∧
    (changeFormation exampleScheduler RangeOrder.asListed failingBytes 1
        "app1".toList "web".toList ⟨2, "web".toList⟩).outcome = .panicked ∧
    ¬ ∃ r : Response, (changeFormation exampleScheduler RangeOrder.asListed failingBytes 1
        "app1".toList "web".toList ⟨2, "web".toList⟩).outcome = .returned r := by
  have hp : (changeFormation exampleScheduler RangeOrder.asListed failingBytes 1
      "app1".toList "web".toList ⟨2, "web".toList⟩).outcome = .panicked := by decide
  refine ⟨rfl, by decide, by decide, hp, ?_⟩
  rintro ⟨r, hr⟩
  rw [hp] at hr
  cases hr

/-- C6, amended. Response of `changeFormation` on a snapshot with at least one
host, when the read of the random source succeeds in each of the `diff` calls
of `randomID` a scale-up makes: the call returns; it returns status 500 and no
formation exactly when the state fetch fails or the Schedule call, made exactly
when `diff > 0`, returns a transport error or an unsuccessful result; in every
other case it returns status 200 with the requested type and the quantity
`max(0, requested quantity)`. -/
theorem changeFormation_response (sched : Scheduler) (order : RangeOrder)
    (rnd : Nat → RandRead) (fuel : Nat) (app_id formation_id : GoString) (req : Formation)
    (hwf : ∀ state, sched.State = .ok state →
      (mapKeys state).Nodup ∧ mapKeys state ≠ [] ∧
      (req.Quantity - matchCount state (formationPrefix app_id formation_id)).toNat ≤ fuel ∧
      ∀ k,
        k < (req.Quantity - matchCount state (formationPrefix app_id formation_id)).toNat →
        ∃ b, rnd k = .ok b) :
    ∃ r : Response,
      (changeFormation sched order rnd fuel app_id formation_id req).outcome = .returned r ∧
      (∀ state, sched.State = .ok state →
        (scheduleCalls (changeFormation sched order rnd fuel app_id formation_id req).effects ≠ []
          ↔ (matchCount state (formationPrefix app_id formation_id) : Int)
              < max 0 req.Quantity)) ∧
      ((r.status = 500 ∧ r.formation = none) ↔
        ((∃ err, sched.State = .error err) ∨
          ∃ sreq ∈ scheduleCalls
              (changeFormation sched order rnd fuel app_id formation_id req).effects,
            sched.Schedule sreq ≠ .result true)) ∧
      (¬ (r.status = 500 ∧ r.formation = none) →
        r.status = 200 ∧ r.formation = some ⟨max 0 req.Quantity, req.Typ⟩) := by
  cases hs : sched.State with
  | error err =>
    rw [changeFormation_stateError sched order rnd fuel app_id formation_id req err hs]
    refine ⟨⟨500, none, some err⟩, rfl, ?_, ?_, ?_⟩
    · intro state h; cases h
    · simp
    · simp
  | ok state =>
    obtain ⟨hnd, hne, hf, hr⟩ := hwf state hs
    by_cases hq : (matchCount state (formationPrefix app_id formation_id) : Int) < req.Quantity
    · obtain ⟨sreq, hrun, -, -, -⟩ := changeFormation_scaleUp sched order rnd fuel app_id
        formation_id req state hs hnd hne hq hf hr
      rw [hrun]
      refine ⟨scaleUpResponse (sched.Schedule sreq) req, rfl, ?_, ?_, ?_⟩
      · intro state' h'
        cases h'
        simp only [scheduleCalls]
        constructor
        · intro _; omega
        · intro _; simp
      · have hmax : max 0 req.Quantity = req.Quantity := by omega
        cases hout : sched.Schedule sreq with
        | transportError err => simp [scaleUpResponse, scheduleCalls, hout]
        | result success => cases success <;> simp [scaleUpResponse, scheduleCalls, hout]
      · have hmax : max 0 req.Quantity = req.Quantity := by omega
        cases hout : sched.Schedule sreq with
        | transportError err => simp [scaleUpResponse]
        | result success => cases success <;> simp [scaleUpResponse, hmax]
    · rw [changeFormation_noScaleUp sched order rnd fuel app_id formation_id req state hs
        (by omega)]
      refine ⟨⟨200, some (clamp req), none⟩, rfl, ?_, ?_, ?_⟩
      · intro state' h'
        cases h'
        simp only [scheduleCalls]
        constructor
        · intro h; exact absurd rfl h
        · intro h; omega
      · simp [scheduleCalls]
      · intro _
        refine ⟨rfl, ?_⟩
        have h1 := clamp_quantity req
        have h2 := clamp_typ req
        cases hc : clamp req with
        | mk q t =>
          rw [hc] at h1 h2
          simp only at h1 h2
          rw [h1, h2]

/-- Witness for C6: on `exampleState`, quantity 2 for `app1`/`web` with a
scheduler that accepts every request and a random source that delivers. -/
theorem changeFormation_response_witness :
    ((mapKeys exampleState).Nodup ∧ mapKeys exampleState ≠ [] ∧
      ∀ k, ∃ b, exampleBytes k = .ok b) ∧
    ∃ r : Response,
      (changeFormation exampleScheduler RangeOrder.asListed exampleBytes 1
        "app1".toList "web".toList ⟨2, "web".toList⟩).outcome = .returned r ∧
      (¬ (r.status = 500 ∧ r.formation = none) →
        r.status = 200 ∧ r.formation = some ⟨max 0 2, "web".toList⟩) :=
  ⟨⟨by decide, by decide, fun _ => ⟨_, rfl⟩⟩,
    (changeFormation_response exampleScheduler RangeOrder.asListed exampleBytes 1
      "app1".toList "web".toList ⟨2, "web".toList⟩
      (fun state h => by
        cases h
        exact ⟨by decide, by decide, by decide, fun _ _ => ⟨_, rfl⟩⟩)).imp
      fun _ h => ⟨h.1, h.2.2.2⟩⟩

/-- C10. Scale-down selection is in range: for every snapshot and every
requested quantity, negative ones included, when `diff = clamp(quantity) -
len(jobs)` is negative the bound of `jobs[:-diff]` satisfies `0 < -diff <=
len(jobs)`, the slice expression does not panic, it selects exactly `c - q`
jobs, all of them taken from the matched jobs, and the call returns. -/
theorem scaleDown_selection_in_range (sched : Scheduler) (order : RangeOrder)
    (rnd : Nat → RandRead) (fuel : Nat) (app_id formation_id : GoString) (req : Formation)
    (state : State) (hst : sched.State = .ok state)
    (hlt : (clamp req).Quantity
      - ((matchedJobs state (formationPrefix app_id formation_id)).length : Int) < 0) :
    0 < -((clamp req).Quantity
        - ((matchedJobs state (formationPrefix app_id formation_id)).length : Int)) ∧
    -((clamp req).Quantity
        - ((matchedJobs state (formationPrefix app_id formation_id)).length : Int))
      ≤ (matchedJobs state (formationPrefix app_id formation_id)).length ∧
    (∃ sel : List Job,
      sliceTo (matchedJobs state (formationPrefix app_id formation_id))
          (-((clamp req).Quantity
            - ((matchedJobs state (formationPrefix app_id formation_id)).length : Int)))
        = some sel ∧
      (sel.length : Int)
        = matchCount state (formationPrefix app_id formation_id) - (clamp req).Quantity ∧
      sel <+: matchedJobs state (formationPrefix app_id formation_id) ∧
      ∀ j ∈ sel, j ∈ matchedJobs state (formationPrefix app_id formation_id)) ∧
    (changeFormation sched order rnd fuel app_id formation_id req).outcome
      = .returned ⟨200, some (clamp req), none⟩ := by
  have hcq := clamp_quantity req
  have hlen := length_matchedJobs state (formationPrefix app_id formation_id)
  refine ⟨by omega, by omega, ?_, ?_⟩
  · refine ⟨_, sliceTo_scaleDown _ _ (by omega) hlt, ?_, List.take_prefix _ _, ?_⟩
    · rw [List.length_take]; omega
    · intro j hj; exact List.mem_of_mem_take hj
  · rw [changeFormation_noScaleUp sched order rnd fuel app_id formation_id req state hst
      (by omega)]

/-- Witness for C10: on `exampleState` the requested quantity -5 for `app1`/`web`
is clamped to 0, `diff` is -1, and the slice selects the one matched job. -/
theorem scaleDown_selection_in_range_witness :
    ((clamp ⟨-5, "web".toList⟩).Quantity
      - ((matchedJobs exampleState (formationPrefix "app1".toList "web".toList)).length : Int)
        < 0) ∧
    (sliceTo (matchedJobs exampleState (formationPrefix "app1".toList "web".toList)) 1).map
        (fun sel => sel.map fun j => j.ID) = some ["app1-web.x".toList] ∧
    (changeFormation exampleScheduler RangeOrder.asListed exampleBytes 0
        "app1".toList "web".toList ⟨-5, "web".toList⟩).outcome
      = .returned ⟨200, some (clamp ⟨-5, "web".toList⟩), none⟩ :=
  ⟨by decide, by decide,
    (scaleDown_selection_in_range exampleScheduler RangeOrder.asListed exampleBytes 0
      "app1".toList "web".toList ⟨-5, "web".toList⟩ exampleState rfl (by decide)).2.2.2⟩

/-- No run of `changeFormation` makes a termination call. -/
theorem changeFormation_no_termination (sched : Scheduler) (order : RangeOrder)
    (rnd : Nat → RandRead) (fuel : Nat) (app_id formation_id : GoString) (req : Formation) :
    terminationCalls (changeFormation sched order rnd fuel app_id formation_id req).effects
      = [] := by
  unfold changeFormation
  cases sched.State with
  | error err => rfl
  | ok state =>
    simp only
    split
    · split
      · rfl
      · rfl
      · split
        · rfl
        · split <;> rfl
    · split
      · split <;> rfl
      · rfl

/-- C1, evaluated at the failing input: one host `h1` running the single job
`app1-web.x`, and the request `app1`/`web` with quantity 0.  Here `c = 1` and
`q = 0`, so `max(0, c - q) = 1` termination is due; the call returns 200 having
made the state fetch only: no termination call and no Schedule call. -/
theorem changeFormation_scale_down_stops_nothing :
    matchCount [("h1".toList, ⟨"h1".toList, [{ ID := "app1-web.x".toList }]⟩)]
        (formationPrefix "app1".toList "web".toList) = 1 ∧
    changeFormation
        ⟨.ok [("h1".toList, ⟨"h1".toList, [{ ID := "app1-web.x".toList }]⟩)],
          fun _ => .result true⟩
        RangeOrder.asListed exampleBytes 8 "app1".toList "web".toList
        ⟨0, "web".toList⟩
      = ⟨[.state], .returned ⟨200, some ⟨0, "web".toList⟩, none⟩⟩ ∧
    terminationCalls (changeFormation
        ⟨.ok [("h1".toList, ⟨"h1".toList, [{ ID := "app1-web.x".toList }]⟩)],
          fun _ => .result true⟩
        RangeOrder.asListed exampleBytes 8 "app1".toList "web".toList
        ⟨0, "web".toList⟩).effects = [] := by
  refine ⟨by decide, by decide, by decide⟩

/-- C9, evaluated at the failing input: a snapshot with no hosts and desired
quantity 1.  Whatever the pass order and however many passes are allowed, the
scale-up loop has not ended: the call makes the state fetch and never returns a
response. -/
theorem changeFormation_no_hosts_never_returns (order : RangeOrder) (rnd : Nat → RandRead)
    (schedule : ScheduleReq → ScheduleOutcome) (fuel : Nat) :
    changeFormation ⟨.ok [], schedule⟩ order rnd fuel "app1".toList "web".toList
        ⟨1, "web".toList⟩
      = ⟨[.state], .outOfFuel⟩ := by
  unfold changeFormation
  have hloop := outerLoop_no_hosts (formationPrefix "app1".toList "web".toList) rnd order fuel 0
    ⟨[], 1, 0, false⟩ rfl
  simp only [matchedJobs, List.flatMap_nil, List.length_nil, clamp, mapKeys, List.map_nil]
  simp only [show ¬ ((1 : Int) < 0) by decide, if_false]
  simp only [show ((1 : Int) - ((0 : Nat) : Int) > 0) by decide, if_true]
  simp only [show ((1 : Int) - ((0 : Nat) : Int)) = 1 by decide]
  rw [hloop]

/-! ## Theorems: the identifier prefix -/

theorem mem_matchedJobs (state : State) (pfx : GoString) (j : Job)
    (hj : j ∈ matchedJobs state pfx) :
    HasPrefix j.ID pfx = true ∧
      ∃ entry ∈ state, ∃ j0 ∈ entry.2.Jobs, j0.ID = j.ID ∧ j = annotate entry.2.ID j0 := by
  unfold matchedJobs at hj
  rw [List.mem_flatMap] at hj
  obtain ⟨entry, he, hmem⟩ := hj
  rw [List.mem_map] at hmem
  obtain ⟨j0, hj0, rfl⟩ := hmem
  rw [List.mem_filter] at hj0
  exact ⟨by simpa [annotate] using hj0.2, entry, he, j0, hj0.1, rfl, rfl⟩

theorem prefix_delim_unique (c : Char) :
    ∀ (a a' x y : List Char), c ∉ a → c ∉ a' → (a ++ c :: x) <+: (a' ++ c :: y) →
      a = a' ∧ x <+: y := by
  intro a
  induction a with
  | nil =>
    intro a' x y _ ha' hp
    cases a' with
    | nil =>
      simp only [List.nil_append] at hp
      exact ⟨rfl, (List.cons_prefix_cons.mp hp).2⟩
    | cons b rest =>
      simp only [List.nil_append, List.cons_append] at hp
      have hb := (List.cons_prefix_cons.mp hp).1
      exact absurd (by simp [hb]) ha'
  | cons b rest ih =>
    intro a' x y ha ha' hp
    cases a' with
    | nil =>
      simp only [List.nil_append, List.cons_append] at hp
      have hb := (List.cons_prefix_cons.mp hp).1
      exact absurd (by simp [hb]) ha
    | cons b' rest' =>
      simp only [List.cons_append] at hp
      obtain ⟨hb, hp'⟩ := List.cons_prefix_cons.mp hp
      have ha0 : c ∉ rest := fun h => ha (List.mem_cons_of_mem _ h)
      have ha0' : c ∉ rest' := fun h => ha' (List.mem_cons_of_mem _ h)
      obtain ⟨e, hxy⟩ := ih rest' x y ha0 ha0' hp'
      exact ⟨by rw [hb, e], hxy⟩

/-- C3 as stated fails: the job `my-app-web.x`, formed for app `my` and formation
type `app-web`, is selected by the reconciliation of app `my-app`, type `web`. -/
theorem prefix_isolation_fails_with_delimiters :
    "my".toList ≠ "my-app".toList ∧
    (matchedJobs
        [("h1".toList,
          ⟨"h1".toList, [{ ID := jobIDFor "my".toList "app-web".toList "x".toList }]⟩)]
        (formationPrefix "my-app".toList "web".toList)).map (fun j => j.ID)
      = [jobIDFor "my".toList "app-web".toList "x".toList] := by
  refine ⟨by decide, by decide⟩

/-- C3, amended. For app ids without `-` and formation types without `.`, the
jobs `changeFormation` selects for `(A, T)` never include a job whose identifier
was formed as `{A'}-{T'}.{suffix}` for another app `A' != A` or another type
`T' != T`. -/
theorem prefix_isolation (A T A' T' suffix : GoString) (state : State)
    (hA : '-' ∉ A) (hA' : '-' ∉ A') (hT : '.' ∉ T) (hT' : '.' ∉ T')
    (hne : A' ≠ A ∨ T' ≠ T) :
    ∀ j ∈ matchedJobs state (formationPrefix A T), j.ID ≠ jobIDFor A' T' suffix := by
  intro j hj hid
  have hp := (mem_matchedJobs state _ j hj).1
  rw [hid] at hp
  unfold HasPrefix at hp
  rw [List.isPrefixOf_iff_prefix] at hp
  have e1 : formationPrefix A T = A ++ '-' :: (T ++ '.' :: []) := by
    simp [formationPrefix]
  have e2 : jobIDFor A' T' suffix = A' ++ '-' :: (T' ++ '.' :: suffix) := by
    simp [jobIDFor]
  rw [e1, e2] at hp
  obtain ⟨hAA, hp2⟩ := prefix_delim_unique '-' A A' _ _ hA hA' hp
  obtain ⟨hTT, -⟩ := prefix_delim_unique '.' T T' _ _ hT hT' hp2
  rcases hne with h | h
  · exact h hAA.symm
  · exact h hTT.symm

/-- Witness for C3: reconciling `app1`/`web` does not select `app10-web.x`. -/
theorem prefix_isolation_witness :
    ('-' ∉ "app1".toList ∧ '-' ∉ "app10".toList ∧ '.' ∉ "web".toList) ∧
    ∀ j ∈ matchedJobs
        [("h1".toList, ⟨"h1".toList,
          [{ ID := "app1-web.x".toList }, { ID := "app10-web.x".toList }]⟩)]
        (formationPrefix "app1".toList "web".toList),
      j.ID ≠ jobIDFor "app10".toList "web".toList "x".toList :=
  ⟨by decide,
    prefix_isolation "app1".toList "web".toList "app10".toList "web".toList "x".toList _
      (by decide) (by decide) (by decide) (by decide) (Or.inl (by decide))⟩

/-! ## Theorems: `lorneAttach` and `runJob` -/

/-- C7, evaluated at the failing input: the registry lookup succeeds and
reports no online address.  `lorneAttach` returns a nil error and a nil channel;
`runJob` with `attach` set then schedules the job, writes status 200 and, after
the hijack, receives from the nil channel. -/
theorem lorneAttach_no_address_returns_nil_nil (dial : GoString → Except GoError Conn)
    (encode : AttachReq → Option GoError) (sb : StatusBytes) (host : GoString)
    (req : AttachReq) (b : List Byte) :
    lorneAttach ⟨fun _ => .ok [], dial, encode⟩ sb host req = ⟨none, none, false, 0, none⟩ ∧
    runJob (.ok ⟨["ls".toList], [], true, false, 0, 0⟩)
        ⟨.ok [("h1".toList, ⟨"h1".toList, []⟩)], fun _ => .result true⟩
        ⟨fun _ => .ok [], dial, encode⟩ sb b true "app1".toList
      = ⟨some ⟨none, none, false, 0, none⟩,
          [⟨[("h1".toList,
              [runJobJob "app1".toList b ⟨["ls".toList], [], true, false, 0, 0⟩])]⟩],
          .receivesFrom 200 none⟩ := by
  constructor
  · rfl
  · simp [runJob, lorneAttach, pickHost]

/-- Away from the empty address list the pair returned by `lorneAttach` is well
formed: a non-nil error with a nil channel, or a nil error with a channel. -/
theorem lorneAttach_pair_with_address (net : Network) (sb : StatusBytes) (host : GoString)
    (req : AttachReq)
    (haddr : net.Services ("flynn-lorne-attach.".toList ++ host) ≠ .ok []) :
    ((lorneAttach net sb host req).err ≠ none ∧ (lorneAttach net sb host req).errChan = none) ∨
    ((lorneAttach net sb host req).err = none ∧ (lorneAttach net sb host req).errChan ≠ none) := by
  unfold lorneAttach
  cases hs : net.Services ("flynn-lorne-attach.".toList ++ host) with
  | error err => left; simp
  | ok addrs =>
    cases addrs with
    | nil => exact absurd hs haddr
    | cons addr rest =>
      simp only
      cases net.Dial addr with
      | error err => left; simp
      | ok conn =>
        simp only
        cases net.Encode req with
        | some err => left; simp
        | none =>
          simp only
          cases hr : conn.Read with
          | error err => left; simp
          | ok pair =>
            obtain ⟨attachState, conn'⟩ := pair
            simp only
            by_cases h1 : attachState = sb.AttachError
            · rw [if_pos h1]
              cases hf : conn'.failure with
              | none => left; simp [ReadAll, hf]
              | some e => left; simp [ReadAll, hf]
            · rw [if_neg h1]
              by_cases h2 : attachState = sb.AttachWaiting
              · rw [if_pos h2]; right; simp
              · rw [if_neg h2]; right; simp

/-- The goroutine of the Waiting case, on a second status byte that is not the
Error status: it runs the copy loop on the rest of the stream. -/
theorem awaitStatus_attaches (sb : StatusBytes) (second : Byte) (rest : List Byte)
    (fail : Option GoError) (h : second ≠ sb.AttachError) :
    awaitStatus sb ⟨second :: rest, fail⟩ = .attaches ⟨rest, fail⟩ := by
  simp [awaitStatus, Conn.Read, h]

/-- C8. Handshake outcome by first status byte, for every connection whose
first byte is `first` and whose remaining bytes are `rest`.  If `first` is the
Error status and the stream ends cleanly, `lorneAttach` fails with the error
whose message is exactly `rest`, having closed the connection.  If `first` is
neither Error nor Waiting it returns a nil error and a channel at once and
starts the copy loop.  If `first` is Waiting it returns a nil error and a
channel, its own path having read the first byte only. -/
theorem lorneAttach_handshake (net : Network) (sb : StatusBytes) (host : GoString)
    (req : AttachReq) (addr : GoString) (addrs : List GoString) (first : Byte)
    (rest : List Byte) (fail : Option GoError)
    (hdistinct : sb.AttachError ≠ sb.AttachWaiting)
    (hsvc : net.Services ("flynn-lorne-attach.".toList ++ host) = .ok (addr :: addrs))
    (hdial : net.Dial addr = .ok ⟨first :: rest, fail⟩)
    (henc : net.Encode req = none) :
    (first = sb.AttachError → fail = none →
      lorneAttach net sb host req
        = ⟨some (.new rest), none, true, 1 + rest.length, none⟩) ∧
    (first ≠ sb.AttachError → first ≠ sb.AttachWaiting →
      lorneAttach net sb host req
        = ⟨none, some .made, false, 1, some (.attach ⟨rest, fail⟩)⟩) ∧
    (first = sb.AttachWaiting →
      lorneAttach net sb host req
        = ⟨none, some .made, false, 1, some (.awaitStatus ⟨rest, fail⟩)⟩) := by
  refine ⟨?_, ?_, ?_⟩
  · intro h1 h2
    subst h2
    unfold lorneAttach
    simp only [hsvc, hdial, henc, Conn.Read, ReadAll]
    rw [if_pos h1]
  · intro h1 h2
    unfold lorneAttach
    simp only [hsvc, hdial, henc, Conn.Read]
    rw [if_neg h1, if_neg h2]
  · intro h1
    have hne : ¬ first = sb.AttachError := by
      rw [h1]; exact fun e => hdistinct e.symm
    unfold lorneAttach
    simp only [hsvc, hdial, henc, Conn.Read]
    rw [if_neg hne, if_pos h1]

/-- Witness for C8: status bytes Waiting = 1 and Error = 2, and an agent that
sends the Error status followed by the two bytes 104, 105. -/
theorem lorneAttach_handshake_witness :
    ((⟨2, 1⟩ : StatusBytes).AttachError ≠ (⟨2, 1⟩ : StatusBytes).AttachWaiting) ∧
    lorneAttach ⟨fun _ => .ok ["10.0.0.1:1".toList], fun _ => .ok ⟨[2, 104, 105], none⟩,
        fun _ => none⟩ ⟨2, 1⟩ "h1".toList ⟨"app1-run.x".toList, attachFlags, 0, 0⟩
      = ⟨some (.new [104, 105]), none, true, 3, none⟩ :=
  ⟨by decide,
    (lorneAttach_handshake
      ⟨fun _ => .ok ["10.0.0.1:1".toList], fun _ => .ok ⟨[2, 104, 105], none⟩, fun _ => none⟩
      ⟨2, 1⟩ "h1".toList ⟨"app1-run.x".toList, attachFlags, 0, 0⟩ "10.0.0.1:1".toList []
      2 [104, 105] none (by decide) rfl rfl rfl).1 rfl rfl⟩

end FlynnAPI
